import Mathlib

/-!
Verification development for the GASpy pipeline (src/tasks.py,
src/gaspy/gasdb.py, src/gaspy/defaults.py).

Shallow embedding: each Luigi task class of src/tasks.py becomes a
constructor of an inductive `Task` carrying its `parameters` dictionary,
and each `requires` method becomes one arm of `requires : Task → List Task`.
Pure computations (energy referencing, document cleaning, hashing, default
parameter construction) become Lean functions over rationals, lists and
association lists.
-/

namespace GASpy

/-! ## Task parameters (src/tasks.py)

The `requires` methods read and rewrite only a handful of keys of the
`parameters` dictionary; the model keeps exactly those keys and collapses
everything else into opaque `rest` strings. A missing key is `none`. -/

/-- One entry of parameters['adsorption']['adsorbates']: an OrderedDict with
an adsorbate name and a hex-encoded pickled atoms object. -/
structure AdsEntry where
  name : String
  atomsHex : String
deriving DecidableEq

/-- The blank adsorbate OrderedDict(name='', atoms=pickle.dumps(Atoms('')).encode('hex'))
that several requires methods substitute in order to relax a bare slab. -/
def blankAdsorbate : AdsEntry := { name := "", atomsHex := "pickledEmptyAtomsHex" }

/-- parameters['adsorption']: the requires methods only inspect or rewrite the
adsorbates key; adsorbates = none models that key having been deleted. -/
structure AdsorptionP where
  adsorbates : Option (List AdsEntry)
  rest : String
deriving DecidableEq

/-- parameters['gas']: the requires methods only rewrite gasname. -/
structure GasP where
  gasname : String
  rest : String
deriving DecidableEq

/-- A Luigi parameter dictionary, restricted to the keys that the requires
methods of src/tasks.py read or write. -/
structure Params where
  unrelaxed : Option Bool := none
  bulk : Option String := none
  slab : Option String := none
  gas : Option GasP := none
  adsorption : Option AdsorptionP := none
deriving DecidableEq

/-- Python's test `'unrelaxed' in self.parameters and self.parameters['unrelaxed']`. -/
def Params.isUnrelaxed (p : Params) : Bool := p.unrelaxed.getD false

/-- The sub-dictionary {'bulk': self.parameters['bulk']} passed to bulk tasks. -/
def onlyBulk (p : Params) : Params := { bulk := p.bulk }

/-- A deep copy of the parameters with
param['adsorption']['adsorbates'] = [OrderedDict(name='', atoms=...)] applied. -/
def withBlankAdsorbates (p : Params) : Params :=
  { p with adsorption := p.adsorption.map fun a => { a with adsorbates := some [blankAdsorbate] } }

/-- A deep copy of the parameters with
del parameters_no_adsorbate['adsorption']['adsorbates'] applied
(GenerateAdslabs.requires). -/
def withoutAdsorbates (p : Params) : Params :=
  { p with adsorption := p.adsorption.map fun a => { a with adsorbates := none } }

/-- param = copy.deepcopy({'gas': self.parameters['gas']}) followed by
param['gas']['gasname'] = g (CalculateEnergy.requires). -/
def gasOnly (p : Params) (g : String) : Params :=
  { gas := p.gas.map fun gp => { gp with gasname := g } }

/-- The calctype string argument of SubmitToFW. -/
inductive CalcType
  | bulk
  | slab
  | gas
  | slabAdsorbate
deriving DecidableEq

/-- The parametrised Luigi task classes of src/tasks.py that form the
dependency graph keyed by a parameter dictionary. -/
inductive Task
  | generateBulk (p : Params)
  | generateGas (p : Params)
  | generateSurfaces (p : Params)
  | generateSiteMarkers (p : Params)
  | generateAdslabs (p : Params)
  | submitToFW (calctype : CalcType) (p : Params)
  | calculateEnergy (p : Params)
  | fingerprintRelaxedAdslab (p : Params)
  | fingerprintUnrelaxedAdslabs (p : Params)
  | dumpToLocalDB (p : Params)
  | updateEnumerations (p : Params)
deriving DecidableEq

/-- Modelled from the spec: the SubmitToFW class (the job-submission stage) is
not among the repository files; only its callers are. The spec stages the
pipeline "structure generation → job submission → ...", so job submission
depends only on the structure-generation task matching its calctype. -/
def submitToFWRequires (calctype : CalcType) (p : Params) : List Task :=
  match calctype with
  | .bulk => [.generateBulk p]
  | .gas => [.generateGas p]
  | .slab => [.generateSurfaces p]
  | .slabAdsorbate => [.generateAdslabs p]

/-- The requires method of each task class of src/tasks.py (a task class with
no requires method has Luigi's default, no requirements). -/
def requires : Task → List Task
  | .generateBulk _ => []
  | .generateGas _ => []
  | .generateSurfaces p =>
      if p.isUnrelaxed then [.generateBulk (onlyBulk p)]
      else [.submitToFW .bulk (onlyBulk p)]
  | .generateSiteMarkers p =>
      if p.isUnrelaxed then
        [.generateSurfaces { unrelaxed := some true, bulk := p.bulk, slab := p.slab },
         .generateBulk (onlyBulk p)]
      else
        [.submitToFW .slab { bulk := p.bulk, slab := p.slab },
         .submitToFW .bulk (onlyBulk p)]
  | .generateAdslabs p => [.generateSiteMarkers (withoutAdsorbates p)]
  | .submitToFW calctype p => submitToFWRequires calctype p
  | .calculateEnergy p =>
      [.submitToFW .slabAdsorbate p,
       .submitToFW .slabAdsorbate (withBlankAdsorbates p),
       .submitToFW .gas (gasOnly p "CO"),
       .submitToFW .gas (gasOnly p "H2"),
       .submitToFW .gas (gasOnly p "H2O")]
  | .fingerprintRelaxedAdslab p =>
      [.calculateEnergy p, .submitToFW .slabAdsorbate (withBlankAdsorbates p)]
  | .fingerprintUnrelaxedAdslabs p =>
      [.generateAdslabs p, .generateAdslabs (withBlankAdsorbates p)]
  | .dumpToLocalDB p =>
      [.calculateEnergy p, .fingerprintRelaxedAdslab p, .submitToFW .bulk (onlyBulk p)]
  | .updateEnumerations p => [.fingerprintUnrelaxedAdslabs p]

/-- t' is a direct prerequisite of t: t' appears in the list returned by
t's requires method. -/
def directPrereq (t' t : Task) : Prop := t' ∈ requires t

/-- A pipeline-stage rank: every direct prerequisite has strictly smaller rank. -/
def rank : Task → Nat
  | .generateBulk _ => 0
  | .generateGas _ => 0
  | .submitToFW .bulk _ => 1
  | .submitToFW .gas _ => 1
  | .generateSurfaces _ => 2
  | .submitToFW .slab _ => 3
  | .generateSiteMarkers _ => 4
  | .generateAdslabs _ => 5
  | .submitToFW .slabAdsorbate _ => 6
  | .calculateEnergy _ => 7
  | .fingerprintUnrelaxedAdslabs _ => 7
  | .fingerprintRelaxedAdslab _ => 8
  | .updateEnumerations _ => 8
  | .dumpToLocalDB _ => 9

/-! ## Parameter-keyed output files (C2) and the cached scheduler (C3)

Every pickle-producing task class of src/tasks.py has the same output
method, luigi.LocalTarget(LOCAL_DB_PATH+'/pickles/%s.pkl'%(self.task_id)). -/

def LOCAL_DB_PATH : String := "/global/cscratch1/sd/zulissi/GASpy_DB/"

/-- The path of the LocalTarget returned by output(): the '%s.pkl' formatting
of the task identifier under LOCAL_DB_PATH/pickles. -/
def pickleOutput (taskIdent : String) : String :=
  LOCAL_DB_PATH ++ "/pickles/" ++ taskIdent ++ ".pkl"

/-- Modelled from the spec: luigi's task_id attribute is not among the
repository files (it comes from the luigi library). Per the spec, each unit
of work is "keyed by its input parameters", so the identifier is the task
family name applied to the serialized parameter dictionary. -/
def luigiTaskId (family paramRepr : String) : String :=
  family ++ "(" ++ paramRepr ++ ")"

def GenerateBulk_output (p : String) : String := pickleOutput (luigiTaskId "GenerateBulk" p)

def GenerateGas_output (p : String) : String := pickleOutput (luigiTaskId "GenerateGas" p)

def GenerateSurfaces_output (p : String) : String :=
  pickleOutput (luigiTaskId "GenerateSurfaces" p)

def GenerateSiteMarkers_output (p : String) : String :=
  pickleOutput (luigiTaskId "GenerateSiteMarkers" p)

def GenerateAdslabs_output (p : String) : String :=
  pickleOutput (luigiTaskId "GenerateAdslabs" p)

def CalculateEnergy_output (p : String) : String :=
  pickleOutput (luigiTaskId "CalculateEnergy" p)

def FingerprintRelaxedAdslab_output (p : String) : String :=
  pickleOutput (luigiTaskId "FingerprintRelaxedAdslab" p)

def FingerprintUnrelaxedAdslabs_output (p : String) : String :=
  pickleOutput (luigiTaskId "FingerprintUnrelaxedAdslabs" p)

def DumpToLocalDB_output (p : String) : String :=
  pickleOutput (luigiTaskId "DumpToLocalDB" p)

def UpdateEnumerations_output (p : String) : String :=
  pickleOutput (luigiTaskId "UpdateEnumerations" p)

/-! For the scheduler model we also render a `Task` of the dependency graph
to its output file name. Injectivity of this rendering is never needed. -/

def taskFamily : Task → String
  | .generateBulk _ => "GenerateBulk"
  | .generateGas _ => "GenerateGas"
  | .generateSurfaces _ => "GenerateSurfaces"
  | .generateSiteMarkers _ => "GenerateSiteMarkers"
  | .generateAdslabs _ => "GenerateAdslabs"
  | .submitToFW _ _ => "SubmitToFW"
  | .calculateEnergy _ => "CalculateEnergy"
  | .fingerprintRelaxedAdslab _ => "FingerprintRelaxedAdslab"
  | .fingerprintUnrelaxedAdslabs _ => "FingerprintUnrelaxedAdslabs"
  | .dumpToLocalDB _ => "DumpToLocalDB"
  | .updateEnumerations _ => "UpdateEnumerations"

def calcTypeName : CalcType → String
  | .bulk => "bulk"
  | .slab => "slab"
  | .gas => "gas"
  | .slabAdsorbate => "slab+adsorbate"

def optionKey : Option String → String
  | none => "absent"
  | some s => "some " ++ s

def adsEntryKey (a : AdsEntry) : String := a.name ++ ":" ++ a.atomsHex

def adsorptionKey : Option AdsorptionP → String
  | none => "absent"
  | some a =>
      (match a.adsorbates with
       | none => "noads"
       | some l => (l.map adsEntryKey).foldl (fun acc s => acc ++ "," ++ s) "ads") ++
      "|" ++ a.rest

def gasPKey : Option GasP → String
  | none => "absent"
  | some g => g.gasname ++ "|" ++ g.rest

/-- A serialization of the parameter dictionary of a task. -/
def paramsKey (p : Params) : String :=
  (match p.unrelaxed with
   | none => "u-absent"
   | some b => if b then "u-true" else "u-false") ++ ";" ++
  optionKey p.bulk ++ ";" ++ optionKey p.slab ++ ";" ++
  gasPKey p.gas ++ ";" ++ adsorptionKey p.adsorption

/-- The output file of a task of the dependency graph. -/
def outName (t : Task) : String :=
  match t with
  | .submitToFW ct p => pickleOutput (luigiTaskId "SubmitToFW" (calcTypeName ct ++ ";" ++ paramsKey p))
  | t => pickleOutput (luigiTaskId (taskFamily t) (paramsKey (match t with
      | .generateBulk p => p
      | .generateGas p => p
      | .generateSurfaces p => p
      | .generateSiteMarkers p => p
      | .generateAdslabs p => p
      | .submitToFW _ p => p
      | .calculateEnergy p => p
      | .fingerprintRelaxedAdslab p => p
      | .fingerprintUnrelaxedAdslabs p => p
      | .dumpToLocalDB p => p
      | .updateEnumerations p => p)))

/-- Modelled from the spec: the scheduler (the luigi library, not a repository
file) runs a list of goal tasks against a filesystem holding the completion
tokens. It skips a task whose output file exists ("persisted to disk so
repeated pipeline invocations skip completed work"); otherwise it first
builds the task's requirements, then runs the task, which writes its output
file last (as the run methods of src/tasks.py do). Returns the final
filesystem and the tasks whose run method executed, in execution order. -/
def buildL : Nat → List Task → List String → List String × List Task
  | 0, _, fs => (fs, [])
  | _ + 1, [], fs => (fs, [])
  | n + 1, t :: ts, fs =>
      if outName t ∈ fs then
        buildL (n + 1) ts fs
      else
        ((buildL (n + 1) ts ((buildL n (requires t) fs).1 ++ [outName t])).1,
         (buildL n (requires t) fs).2 ++
           t :: (buildL (n + 1) ts ((buildL n (requires t) fs).1 ++ [outName t])).2)
termination_by n ts _ => (n, ts.length)

/-- One pipeline invocation on goal task t: fuel rank t + 1 covers the whole
requires closure because every requires edge strictly decreases rank. -/
def build (t : Task) (fs : List String) : List String × List Task :=
  buildL (rank t + 1) [t] fs

/-! ## CalculateEnergy.run (C5, src/tasks.py lines 647-706)

Potential energies of relaxed candidate structures become rationals; the
pickled candidate lists become lists of their energies. -/

/-- Chemical symbols for which mono_atom_energies is defined. -/
inductive ChemSym
  | H
  | O
  | C
deriving DecidableEq

/-- np.min of a list of energies. -/
def npMin : List ℚ → ℚ
  | [] => 0
  | [x] => x
  | x :: y :: ys => min x (npMin (y :: ys))

/-- np.argmin of a list of energies: the index of the first minimum. -/
def npArgmin : List ℚ → Nat
  | [] => 0
  | [_] => 0
  | x :: y :: ys => if x ≤ npMin (y :: ys) then 0 else npArgmin (y :: ys) + 1

/-- The data CalculateEnergy.run reads from its inputs: the potential
energies of the relaxed slab+adsorbate candidates (inputs[0]), of the
relaxed blank-slab candidates (inputs[1]), the gas phase energies of CO, H2
and H2O (inputs[2..4]), and the chemical symbols of every adsorbate of
parameters['adsorption']['adsorbates'] (via ads_dict(...).get_chemical_symbols()). -/
structure EnergyInputs where
  slabAds : List ℚ
  slabBlank : List ℚ
  gasCO : ℚ
  gasH2 : ℚ
  gasH2O : ℚ
  adsorbateSymbols : List (List ChemSym)

/-- mono_atom_energies: the per-atom energies as a linear combination of the
gas basis set, as CalculateEnergy.run builds them. -/
def monoAtomEnergies (i : EnergyInputs) : ChemSym → ℚ
  | .H => i.gasH2 / 2
  | .O => i.gasH2O - i.gasH2
  | .C => i.gasCO - (i.gasH2O - i.gasH2)

/-- The dE computed by CalculateEnergy.run: the energy of the candidate at
np.argmin of the slab+adsorbate list, minus np.min of the blank-slab list,
minus the summed per-atom gas reference energy of every adsorbate. -/
def calculateEnergyDE (i : EnergyInputs) : ℚ :=
  (i.slabAds.getD (npArgmin i.slabAds) 0) - npMin i.slabBlank -
    (i.adsorbateSymbols.map fun syms => (syms.map (monoAtomEnergies i)).sum).sum

/-- The per-atom reference energies exactly as the claim words them:
H = E(H2)/2, O = E(H2O) - E(H2), C = E(CO) - (E(H2O) - E(H2)). -/
def specReferenceEnergy (i : EnergyInputs) : ChemSym → ℚ
  | .H => i.gasH2 / 2
  | .O => i.gasH2O - i.gasH2
  | .C => i.gasCO - (i.gasH2O - i.gasH2)

/-- The adsorption energy as the claim words it:
dE = E(slab+adsorbate) - E(blank slab) - sum of per-atom references, with the
two E values the minimum potential energies over the candidate lists. -/
def specAdsorptionEnergy (i : EnergyInputs) : ℚ :=
  npMin i.slabAds - npMin i.slabBlank -
    (i.adsorbateSymbols.map fun syms => (syms.map (specReferenceEnergy i)).sum).sum

/-- A concrete energy input set: slab+adsorbate candidates 3, 1, 2 eV, blank
candidates 2, 5 eV, gas energies 10, 4, 6 eV, one CO adsorbate. -/
def energyInputsExample : EnergyInputs :=
  { slabAds := [3, 1, 2]
    slabBlank := [2, 5]
    gasCO := 10
    gasH2 := 4
    gasH2O := 6
    adsorbateSymbols := [[.C, .O]] }

/-! ## DumpBulkGasToAuxDB.run (C6, src/tasks.py lines 38-81) -/

/-- A firework of the primary FireWorks database: its ID, its state and its
name.calculation_type. -/
structure Firework where
  fwid : Nat
  state : String
  calculationType : String
deriving DecidableEq

/-- A document of the auxiliary vasp.mongo database; fwid = none models a
document without a fwid key. -/
structure AuxDoc where
  fwid : Option Nat
  docType : String
deriving DecidableEq

/-- lpad.get_fw_ids({'state':'COMPLETED', 'name.calculation_type': ct}). -/
def getFwIds (lpad : List Firework) (ct : String) : List Nat :=
  (lpad.filter fun fw => fw.state == "COMPLETED" && fw.calculationType == ct).map Firework.fwid

/-- The fwids already present in the auxiliary database:
[a['fwid'] for a in aux_db.find({'fwid':{'$exists':True}})]. -/
def auxFwids (aux : List AuxDoc) : List Nat := aux.filterMap AuxDoc.fwid

/-- The doc['type'] assignment of DumpBulkGasToAuxDB.run. -/
def bulkGasDocType (ct : String) : String :=
  if ct == "unit cell optimization" then "bulk"
  else if ct == "gas phase optimization" then "gas"
  else "unset"

/-- DumpBulkGasToAuxDB.run: the documents written to the auxiliary database,
in order: one per completed unit-cell or gas-phase firework whose fwid is not
already present. -/
def dumpBulkGasToAuxDBRun (lpad : List Firework) (aux : List AuxDoc) : List AuxDoc :=
  ((getFwIds lpad "unit cell optimization" ++ getFwIds lpad "gas phase optimization").filter
      fun fwid => !(auxFwids aux).contains fwid).map fun fwid =>
    { fwid := some fwid
      docType := match lpad.find? fun fw => fw.fwid == fwid with
                 | some fw => bulkGasDocType fw.calculationType
                 | none => "unset" }

/-- A concrete launchpad: completed unit-cell firework 1, completed gas-phase
firework 2, running unit-cell firework 3. -/
def lpadExample : List Firework :=
  [{ fwid := 1, state := "COMPLETED", calculationType := "unit cell optimization" },
   { fwid := 2, state := "COMPLETED", calculationType := "gas phase optimization" },
   { fwid := 3, state := "RUNNING", calculationType := "unit cell optimization" }]

/-- A concrete auxiliary database that already holds firework 2. -/
def auxExample : List AuxDoc := [{ fwid := some 2, docType := "gas" }]

/-! ## GenerateSurfaces.run (C7, src/tasks.py lines 390-466)

The pymatgen slab generation and symmetry analysis are external library
calls; their outputs (miller index, shift, and the matrix[2][2] entries of
the slab's symmetry operations) are taken as the input data of each slab. -/

/-- One slab as returned by SlabGenerator.get_slabs, together with the
matrix[2][2] entry of each symmetry operation that
SpacegroupAnalyzer(slab, symprec=0.1).get_symmetry_operations() finds. -/
structure PSlab where
  millerIndex : Int × Int × Int
  shift : ℚ
  symmZZ : List ℚ
deriving DecidableEq

/-- The tags of a document saved by GenerateSurfaces.run (the fields the
claim is about); flipped records that the document holds the slab after the
rotate('x', math.pi) flip. -/
structure SlabDoc where
  top : Bool
  flipped : Bool
  mpid : String
  miller : Int × Int × Int
  shift : ℚ
deriving DecidableEq

/-- The shift tag: zero when this slab is the only generated slab with its
miller index, the slab's own shift otherwise. -/
def slabShiftTag (slabs : List PSlab) (slab : PSlab) : ℚ :=
  if (slabs.filter fun a => a.millerIndex == slab.millerIndex).length = 1 then 0
  else slab.shift

/-- z_invertible: True in map(lambda x: x.as_dict()['matrix'][2][2] == -1, symm_ops). -/
def zInvertible (slab : PSlab) : Bool := slab.symmZZ.any fun z => z == -1

/-- The documents one loop iteration of GenerateSurfaces.run appends for one
slab: the top document, and, when the slab is not z-invertible, the flipped
bottom document with the same shift, mpid and miller tags. -/
def slabDocsFor (mpid : String) (miller : Int × Int × Int) (slabs : List PSlab)
    (slab : PSlab) : List SlabDoc :=
  if zInvertible slab then
    [{ top := true, flipped := false, mpid := mpid, miller := miller,
       shift := slabShiftTag slabs slab }]
  else
    [{ top := true, flipped := false, mpid := mpid, miller := miller,
       shift := slabShiftTag slabs slab },
     { top := false, flipped := true, mpid := mpid, miller := miller,
       shift := slabShiftTag slabs slab }]

/-- GenerateSurfaces.run: the list slabsave that is pickled to the output,
built over all generated slabs. -/
def generateSurfacesRun (mpid : String) (miller : Int × Int × Int)
    (slabs : List PSlab) : List SlabDoc :=
  slabs.flatMap (slabDocsFor mpid miller slabs)

/-! ## _clean_up_aggregated_docs (C8, src/gaspy/gasdb.py lines 106-143)

A flat Mongo document is an association list; a value of Option.none models
Python's None. -/

/-- The payload of an aggregated document (what sits under its single
'_id' key). -/
abbrev AggPayload (V : Type) : Type := List (String × Option V)

/-- One document as the aggregation pipeline returns it: everything is
nested under '_id'. -/
structure AggDoc (V : Type) where
  payload : AggPayload V

/-- Python's doc.keys() != expected_keys on two key views, negated: the two
key sets are equal. -/
def keySetEq {V : Type} (doc : AggPayload V) (expected : List String) : Bool :=
  (doc.map Prod.fst).all (fun k => expected.contains k) &&
  expected.all (fun k => (doc.map Prod.fst).contains k)

/-- The loop of _clean_up_aggregated_docs, after the '_id' extraction: a
document with the wrong key set executes `break`, which ends the loop and
returns the documents cleaned so far; a document with a None value is
skipped; any other document is appended. -/
def cleanLoop {V : Type} : List (AggPayload V) → List String → List (AggPayload V)
  | [], _ => []
  | doc :: rest, expected =>
      if keySetEq doc expected then
        if doc.any fun kv => kv.2.isNone then cleanLoop rest expected
        else doc :: cleanLoop rest expected
      else []

/-- _clean_up_aggregated_docs: strips the '_id' wrapper, then runs the
cleaning loop. -/
def cleanUpAggregatedDocs {V : Type} (docs : List (AggDoc V)) (expected : List String) :
    List (AggPayload V) :=
  cleanLoop (docs.map AggDoc.payload) expected

/-- The behaviour the function's docstring (and the claim) describes: each
document with missing keys or a None value "is deleted" on its own, leaving
the documents after it untouched. -/
def cleanUpDocumented {V : Type} (docs : List (AggDoc V)) (expected : List String) :
    List (AggPayload V) :=
  (docs.map AggDoc.payload).filter fun doc =>
    keySetEq doc expected && !(doc.any fun kv => kv.2.isNone)

/-- A concrete aggregation result: the first document has the wrong keys,
the second is perfectly clean. -/
def badKeyAggDocs : List (AggDoc Nat) :=
  [{ payload := [("b", some 1)] }, { payload := [("a", some 2)] }]

/-! ## _hash_doc and _hash_docs (C9, src/gaspy/gasdb.py lines 294-356)

A document value; hashing first rounds floats to two decimal places, then
renders 'key=value; ' fragments over the sorted non-ignored keys. -/

/-- A flat document value as _hash_doc sees it. -/
inductive HVal
  | hstr (s : String)
  | hint (n : Int)
  | hbool (b : Bool)
  | hfloat (q : ℚ)
deriving DecidableEq

/-- round(value, 2). -/
def roundTo2 (q : ℚ) : ℚ := (round (q * 100) : ℤ) / 100

/-- The `if isinstance(value, float): value = round(value, 2)` cleanup. -/
def canonValue : HVal → HVal
  | .hfloat q => .hfloat (roundTo2 q)
  | v => v

/-- Python's str() of a value; only its determinism matters here. -/
def pyStr : HVal → String
  | .hstr s => s
  | .hint n => toString n
  | .hbool b => if b then "True" else "False"
  | .hfloat q => toString q

/-- The fragment str(key + '=' + str(value) + '; ') appended for one key. -/
def docEntry (doc : List (String × HVal)) (key : String) : String :=
  match doc.lookup key with
  | some v => key ++ "=" ++ pyStr (canonValue v) ++ "; "
  | none => ""

/-- sorted(doc.keys()). -/
def sortedKeys (doc : List (String × HVal)) : List String :=
  (doc.map Prod.fst).mergeSort

/-- _hash_doc with _return_hash=False: the pre-hash string `system`, built
over the sorted keys, skipping the ignored ones. Equal pre-hash strings give
equal hashes, since hash() is a function of this string. -/
def hashDocString (doc : List (String × HVal)) (ignoreKeys : List String) : String :=
  (sortedKeys doc).foldl
    (fun system key =>
      if ignoreKeys.contains key then system else system ++ docEntry doc key) ""

/-- _hash_docs with _return_hashes=False: each document is hashed with
'mongo_id' appended to the ignored keys. -/
def hashDocsStrings (docs : List (List (String × HVal))) (ignoreKeys : List String) :
    List String :=
  docs.map fun doc => hashDocString doc (ignoreKeys ++ ["mongo_id"])

/-- A concrete document: an energy float and a mongo id. -/
def hashDocLeft : List (String × HVal) := [("energy", .hfloat (3 / 2)), ("mongo_id", .hint 5)]

/-- The same bindings in the opposite insertion order, with a different
mongo id. -/
def hashDocRight : List (String × HVal) := [("mongo_id", .hint 9), ("energy", .hfloat (3 / 2))]

/-! ## bulk_parameters and calc_settings (C10, src/gaspy/defaults.py)

Python dictionaries are mutable heap objects; the store is the list of
allocated dictionaries and a reference is an index into it, so that the
copy.deepcopy in bulk_parameters and the in-place assignment
settings['encut'] = encut are both visible. -/

/-- A VASP settings value. -/
inductive SVal
  | num (q : ℚ)
  | str (s : String)
  | nums (l : List ℚ)
  | boolv (b : Bool)
deriving DecidableEq

/-- An OrderedDict of settings. -/
abbrev SettingsDict : Type := List (String × SVal)

/-- The heap of allocated settings dictionaries; a reference is an index. -/
abbrev Store : Type := List SettingsDict

/-- Dereference a settings dictionary. -/
def readCell (st : Store) (r : Nat) : SettingsDict := (st[r]?).getD []

/-- Allocate a fresh dictionary (also what copy.deepcopy ends in). -/
def allocCell (st : Store) (d : SettingsDict) : Store × Nat := (st ++ [d], st.length)

/-- OrderedDict assignment d[k] = v as a value: overwrite the existing key in
place, or append the new key at the end. -/
def setEntry (d : SettingsDict) (k : String) (v : SVal) : SettingsDict :=
  if d.any fun kv => kv.1 == k then
    d.map fun kv => if kv.1 == k then (k, v) else kv
  else d ++ [(k, v)]

/-- The in-place assignment settings['encut'] = encut on the heap. -/
def writeKey (st : Store) (r : Nat) (k : String) (v : SVal) : Store :=
  st.set r (setEntry (readCell st r) k v)

/-- OrderedDict(..., **d) on top of base, and the `for key in d: base[key] = d[key]`
loop of calc_settings: fold the entries of d into base. -/
def mergeInto (base : SettingsDict) (d : SettingsDict) : SettingsDict :=
  d.foldl (fun acc kv => setEntry acc kv.1 kv.2) base

/-- xc_settings: the rpbe override, or Vasp.xc_defaults[xc] (external library
data, taken as a function argument). -/
def xcSettings (vaspXc : String → SettingsDict) (xc : String) : SettingsDict :=
  if xc == "rpbe" then [("gga", .str "RP"), ("pp", .str "PBE")] else vaspXc xc

/-- calc_settings: a fresh OrderedDict with encut 350 and pp_version '5.4',
then the xc settings folded in. Every call builds this value anew. -/
def calcSettingsDict (vaspXc : String → SettingsDict) (xc : String) : SettingsDict :=
  mergeInto [("encut", .num 350), ("pp_version", .str "5.4")] (xcSettings vaspXc xc)

/-- The settings argument of bulk_parameters: a string for calc_settings, or
a handle to an existing dictionary. -/
inductive SettingsArg
  | fromString (xc : String)
  | fromRef (r : Nat)

/-- The explicit keyword part of bulk_parameters' vasp_settings. -/
def baseBulkVasp : SettingsDict :=
  [("ibrion", .num 1), ("nsw", .num 100), ("isif", .num 7), ("isym", .num 0),
   ("ediff", .num (1 / 100000000)), ("kpts", .nums [10, 10, 10]), ("prec", .str "Accurate")]

/-- The explicit keyword part of gas_parameters' vasp_settings. -/
def baseGasVasp : SettingsDict :=
  [("ibrion", .num 2), ("nsw", .num 100), ("isif", .num 0), ("kpts", .nums [1, 1, 1]),
   ("ediffg", .num (-3 / 100))]

/-- The OrderedDict bulk_parameters returns. -/
structure BulkParamsResult where
  mpid : String
  relaxed : Bool
  maxAtoms : ℚ
  vaspSettings : SettingsDict

/-- The OrderedDict gas_parameters returns (for a string settings argument):
no deepcopy and no assignment, so it is a pure value. -/
structure GasParamsResult where
  gasname : String
  relaxed : Bool
  vaspSettings : SettingsDict

/-- bulk_parameters: resolve the settings argument (calc_settings allocates
its fresh dictionary), deep-copy it, set encut on the copy, and build the
returned OrderedDict from the copy's entries. -/
def bulkParameters (vaspXc : String → SettingsDict) (mpid : String) (encutVal : SVal)
    (maxAtoms : ℚ) (settings : SettingsArg) (st : Store) : Store × BulkParamsResult :=
  let stage1 : Store × Nat :=
    match settings with
    | .fromString xc => allocCell st (calcSettingsDict vaspXc xc)
    | .fromRef r => (st, r)
  let copied : Store × Nat := allocCell stage1.1 (readCell stage1.1 stage1.2)
  let finalStore : Store := writeKey copied.1 copied.2 "encut" encutVal
  (finalStore,
   { mpid := mpid, relaxed := true, maxAtoms := maxAtoms,
     vaspSettings := mergeInto baseBulkVasp (readCell finalStore copied.2) })

/-- gas_parameters with a string settings argument. -/
def gasParameters (vaspXc : String → SettingsDict) (gasname : String) (xc : String) :
    GasParamsResult :=
  { gasname := gasname, relaxed := true,
    vaspSettings := mergeInto baseGasVasp (calcSettingsDict vaspXc xc) }

theorem rank_lt_of_mem_requires {t' t : Task} (h : t' ∈ requires t) : rank t' < rank t := by
  cases t with
  | generateBulk p => simp [requires] at h
  | generateGas p => simp [requires] at h
  | generateSurfaces p =>
      by_cases hu : p.isUnrelaxed <;> simp [requires, hu] at h <;> subst h <;> simp [rank]
  | generateSiteMarkers p =>
      by_cases hu : p.isUnrelaxed <;> simp [requires, hu] at h <;>
        rcases h with h | h <;> subst h <;> simp [rank]
  | generateAdslabs p => simp [requires] at h; subst h; simp [rank]
  | submitToFW ct p =>
      cases ct <;> simp [requires, submitToFWRequires] at h <;> subst h <;> simp [rank]
  | calculateEnergy p =>
      simp [requires] at h
      rcases h with h | h | h | h | h <;> subst h <;> simp [rank]
  | fingerprintRelaxedAdslab p =>
      simp [requires] at h
      rcases h with h | h <;> subst h <;> simp [rank]
  | fingerprintUnrelaxedAdslabs p =>
      simp [requires] at h
      rcases h with h | h <;> subst h <;> simp [rank]
  | dumpToLocalDB p =>
      simp [requires] at h
      rcases h with h | h | h <;> subst h <;> simp [rank]
  | updateEnumerations p => simp [requires] at h; subst h; simp [rank]

theorem requires_eq_nil_of_rank_zero {t : Task} (h : rank t = 0) : requires t = [] := by
  cases t with
  | generateBulk p => rfl
  | generateGas p => rfl
  | submitToFW ct p => cases ct <;> simp [rank] at h
  | _ => simp_all [rank]

theorem rank_lt_of_transGen {a b : Task} (h : Relation.TransGen directPrereq a b) :
    rank a < rank b := by
  induction h with
  | single h => exact rank_lt_of_mem_requires h
  | tail _ h ih => exact ih.trans (rank_lt_of_mem_requires h)

/-- Tasks reachable from t by following requires edges, between 1 and fuel
steps deep (possibly with repeats). -/
def reachN : Nat → Task → List Task
  | 0, _ => []
  | n + 1, t => requires t ++ (requires t).flatMap fun d => reachN n d

/-- All transitive prerequisites of a task: fuel rank t suffices because
every requires edge strictly decreases rank. -/
def transReqs (t : Task) : List Task := reachN (rank t) t

/-- A representative concrete parameter dictionary for refuting a universally
quantified ordering claim. -/
def someParams : Params :=
  { unrelaxed := none
    bulk := some "mpid-settings"
    slab := some "miller-top-shift-settings"
    gas := some { gasname := "CO", rest := "gas-settings" }
    adsorption := some { adsorbates := some [{ name := "CO", atomsHex := "COhex" }]
                         rest := "adsorption-settings" } }

theorem transGen_of_mem_reachN :
    ∀ (n : Nat) (t t' : Task), t' ∈ reachN n t → Relation.TransGen directPrereq t' t := by
  intro n
  induction n with
  | zero => intro t t' h; simp [reachN] at h
  | succ n ih =>
      intro t t' h
      simp only [reachN, List.mem_append, List.mem_flatMap] at h
      rcases h with h | ⟨d, hd, hrest⟩
      · exact Relation.TransGen.single h
      · exact (ih d t' hrest).tail hd

theorem mem_reachN_of_transGen :
    ∀ (n : Nat) (t t' : Task), rank t ≤ n → Relation.TransGen directPrereq t' t →
      t' ∈ reachN n t := by
  intro n
  induction n with
  | zero =>
      intro t t' hr h
      have hnil : requires t = [] := requires_eq_nil_of_rank_zero (Nat.le_zero.mp hr)
      cases h with
      | single h => simp [directPrereq, hnil] at h
      | tail _ h => simp [directPrereq, hnil] at h
  | succ n ih =>
      intro t t' hr h
      simp only [reachN, List.mem_append, List.mem_flatMap]
      cases h with
      | single h => exact Or.inl h
      | tail h1 h2 =>
          rename_i d
          have hd : rank d ≤ n :=
            Nat.lt_succ_iff.mp (Nat.lt_of_lt_of_le (rank_lt_of_mem_requires h2) hr)
          exact Or.inr ⟨d, h2, ih d t' hd h1⟩

theorem mem_transReqs_iff {t t' : Task} :
    t' ∈ transReqs t ↔ Relation.TransGen directPrereq t' t :=
  ⟨transGen_of_mem_reachN _ t t', mem_reachN_of_transGen _ t t' (Nat.le_refl _)⟩

/-- C4: the task-dependency relation generated by the requires methods is a
well-founded directed acyclic graph, and no task transitively requires
itself, so the recursion that unfolds requires terminates. -/
theorem requires_graph_wellFounded :
    WellFounded directPrereq ∧ ∀ t : Task, ¬ Relation.TransGen directPrereq t t := by
  constructor
  · exact Subrelation.wf (fun h => rank_lt_of_mem_requires h)
      (InvImage.wf rank Nat.lt_wfRel.wf)
  · exact fun t h => absurd (rank_lt_of_transGen h) (lt_irrefl _)

/-- C1 (amended): for every parameter set, the energy-calculation task is a
transitive prerequisite of the fingerprinting task, and the energy-calculation
and fingerprinting tasks are both transitive prerequisites of the
database-dump task, as determined by the tasks' requires methods. -/
theorem energy_before_fingerprint_before_dump (p : Params) :
    Relation.TransGen directPrereq (.calculateEnergy p) (.fingerprintRelaxedAdslab p) ∧
    Relation.TransGen directPrereq (.calculateEnergy p) (.dumpToLocalDB p) ∧
    Relation.TransGen directPrereq (.fingerprintRelaxedAdslab p) (.dumpToLocalDB p) := by
  refine ⟨.single ?_, .single ?_, .single ?_⟩ <;> simp [directPrereq, requires]

/-- C1, counterexample to the claim as stated: the fingerprinting task is
not a (transitive) prerequisite of the energy-calculation task; the requires
edges point the other way around. -/
theorem fingerprint_not_prereq_of_energy :
    ¬ Relation.TransGen directPrereq
        (.fingerprintRelaxedAdslab someParams) (.calculateEnergy someParams) :=
  fun h => absurd (mem_transReqs_iff.mpr h) (by decide)

theorem pickleOutput_luigiTaskId_inj (fam p q : String) :
    pickleOutput (luigiTaskId fam p) = pickleOutput (luigiTaskId fam q) ↔ p = q := by
  constructor
  · intro h
    have hd := congrArg String.data h
    simp only [pickleOutput, luigiTaskId, String.data_append, List.append_assoc] at hd
    have hd1 := List.append_cancel_left hd
    have hd2 := List.append_cancel_left hd1
    have hd3 := List.append_cancel_left hd2
    have hd4 := List.append_cancel_left hd3
    exact String.ext (List.append_cancel_right hd4)
  · intro h; rw [h]

/-- C2: for each task class, the on-disk output path returned by output() is
a deterministic function of the task's parameters: equal parameters give the
same file and different parameters give different files. -/
theorem output_path_keyed_by_parameters (p q : String) :
    (GenerateBulk_output p = GenerateBulk_output q ↔ p = q) ∧
    (GenerateGas_output p = GenerateGas_output q ↔ p = q) ∧
    (GenerateSurfaces_output p = GenerateSurfaces_output q ↔ p = q) ∧
    (GenerateSiteMarkers_output p = GenerateSiteMarkers_output q ↔ p = q) ∧
    (GenerateAdslabs_output p = GenerateAdslabs_output q ↔ p = q) ∧
    (CalculateEnergy_output p = CalculateEnergy_output q ↔ p = q) ∧
    (FingerprintRelaxedAdslab_output p = FingerprintRelaxedAdslab_output q ↔ p = q) ∧
    (FingerprintUnrelaxedAdslabs_output p = FingerprintUnrelaxedAdslabs_output q ↔ p = q) ∧
    (DumpToLocalDB_output p = DumpToLocalDB_output q ↔ p = q) ∧
    (UpdateEnumerations_output p = UpdateEnumerations_output q ↔ p = q) :=
  ⟨pickleOutput_luigiTaskId_inj _ p q, pickleOutput_luigiTaskId_inj _ p q,
   pickleOutput_luigiTaskId_inj _ p q, pickleOutput_luigiTaskId_inj _ p q,
   pickleOutput_luigiTaskId_inj _ p q, pickleOutput_luigiTaskId_inj _ p q,
   pickleOutput_luigiTaskId_inj _ p q, pickleOutput_luigiTaskId_inj _ p q,
   pickleOutput_luigiTaskId_inj _ p q, pickleOutput_luigiTaskId_inj _ p q⟩

theorem buildL_files_mono (n : Nat) (ts : List Task) (fs : List String) :
    fs ⊆ (buildL n ts fs).1 := by
  induction n, ts, fs using buildL.induct with
  | case1 fs => simp [buildL]
  | case2 n fs => simp [buildL]
  | case3 n t ts fs hmem ih => simpa [buildL, hmem] using ih
  | case4 n t ts fs hmem ih1 ih2 =>
      simp only [buildL, if_neg hmem]
      exact fun x hx => ih2 (List.mem_append_left _ (ih1 hx))

theorem buildL_runs_fresh (n : Nat) (ts : List Task) (fs : List String) (t' : Task)
    (h : t' ∈ (buildL n ts fs).2) : outName t' ∉ fs := by
  induction n, ts, fs using buildL.induct with
  | case1 fs => simp [buildL] at h
  | case2 n fs => simp [buildL] at h
  | case3 n t ts fs hmem ih => exact ih (by simpa [buildL, hmem] using h)
  | case4 n t ts fs hmem ih1 ih2 =>
      simp only [buildL, if_neg hmem, List.mem_append, List.mem_cons] at h
      rcases h with h | h | h
      · exact ih1 h
      · subst h; exact hmem
      · intro hfs
        exact ih2 h (List.mem_append_left _ (buildL_files_mono n (requires t) fs hfs))

theorem outName_mem_build (t : Task) (fs : List String) : outName t ∈ (build t fs).1 := by
  by_cases hmem : outName t ∈ fs <;> simp [build, buildL, hmem]

theorem buildL_skip (n : Nat) (t : Task) (fs : List String) (h : outName t ∈ fs) :
    buildL (n + 1) [t] fs = (fs, []) := by
  simp [buildL, h]

/-- C3: the scheduler only runs a task whose output file (completion token)
is absent, and a repeated pipeline invocation on the resulting filesystem
executes no run method at all: completed work is skipped. -/
theorem completed_work_skipped (t : Task) (fs : List String) :
    (∀ t', t' ∈ (build t fs).2 → outName t' ∉ fs) ∧
    (build t (build t fs).1).2 = [] := by
  refine ⟨fun t' h => buildL_runs_fresh _ _ _ _ h, ?_⟩
  have hm : outName t ∈ (build t fs).1 := outName_mem_build t fs
  have h2 := buildL_skip (rank t) t (build t fs).1 hm
  simpa [build] using congrArg Prod.snd h2

theorem getD_npArgmin : ∀ l : List ℚ, l ≠ [] → l.getD (npArgmin l) 0 = npMin l := by
  intro l
  induction l using npMin.induct with
  | case1 => intro h; cases h rfl
  | case2 x => intro _; rfl
  | case3 x y ys ih =>
      intro _
      by_cases h : x ≤ npMin (y :: ys)
      · simp [npArgmin, npMin, h, min_eq_left h]
      · have hlt : npMin (y :: ys) ≤ x := le_of_not_le h
        simp [npArgmin, npMin, h, min_eq_right hlt]
        simpa using ih (by simp)

/-- C5: CalculateEnergy derives the adsorption energy by stoichiometric
referencing against CO, H2 and H2O: dE equals the minimum slab+adsorbate
energy minus the minimum blank-slab energy minus the summed per-atom
reference energies of the adsorbate's atoms (H = E(H2)/2,
O = E(H2O) - E(H2), C = E(CO) - (E(H2O) - E(H2))). -/
theorem calculate_energy_stoichiometric_referencing (i : EnergyInputs)
    (h : i.slabAds ≠ []) : calculateEnergyDE i = specAdsorptionEnergy i := by
  have hfun : monoAtomEnergies i = specReferenceEnergy i := by
    funext s; cases s <;> rfl
  rw [calculateEnergyDE, specAdsorptionEnergy, getD_npArgmin _ h, hfun]

/-- C5 witness: the theorem applied at a concrete nonempty candidate list. -/
theorem calculate_energy_stoichiometric_referencing_witness :
    energyInputsExample.slabAds ≠ [] ∧
      calculateEnergyDE energyInputsExample = specAdsorptionEnergy energyInputsExample :=
  ⟨by simp [energyInputsExample],
   calculate_energy_stoichiometric_referencing energyInputsExample
     (by simp [energyInputsExample])⟩

/-- C6: result harvesting is idempotent with respect to FireWorks IDs: the
run writes exactly the completed unit-cell and gas-phase fireworks whose
fwid is not already in the auxiliary database, writes each such fwid at most
once, and a re-run after the writes writes nothing. -/
theorem dump_bulk_gas_idempotent (lpad : List Firework) (aux : List AuxDoc)
    (hn : (lpad.map Firework.fwid).Nodup) :
    (dumpBulkGasToAuxDBRun lpad aux).filterMap AuxDoc.fwid =
      (getFwIds lpad "unit cell optimization" ++ getFwIds lpad "gas phase optimization").filter
        (fun fwid => !(auxFwids aux).contains fwid) ∧
    ((dumpBulkGasToAuxDBRun lpad aux).filterMap AuxDoc.fwid).Nodup ∧
    dumpBulkGasToAuxDBRun lpad (aux ++ dumpBulkGasToAuxDBRun lpad aux) = [] := by
  have hids : (dumpBulkGasToAuxDBRun lpad aux).filterMap AuxDoc.fwid =
      (getFwIds lpad "unit cell optimization" ++ getFwIds lpad "gas phase optimization").filter
        (fun fwid => !(auxFwids aux).contains fwid) := by
    rw [dumpBulkGasToAuxDBRun, List.filterMap_map]
    exact List.filterMap_some _
  have hsub : ∀ ct : String, (getFwIds lpad ct).Nodup := fun ct =>
    hn.sublist ((List.filter_sublist lpad).map Firework.fwid)
  have hdisj : ∀ a, a ∈ getFwIds lpad "unit cell optimization" →
      a ∈ getFwIds lpad "gas phase optimization" → False := by
    intro a ha hb
    simp only [getFwIds, List.mem_map, List.mem_filter, Bool.and_eq_true, beq_iff_eq] at ha hb
    obtain ⟨fw1, ⟨hfw1, _, hct1⟩, hid1⟩ := ha
    obtain ⟨fw2, ⟨hfw2, _, hct2⟩, hid2⟩ := hb
    have : fw1 = fw2 :=
      List.inj_on_of_nodup_map hn hfw1 hfw2 (hid1.trans hid2.symm)
    rw [this, hct2] at hct1
    exact absurd hct1 (by decide)
  have hnodup : ((getFwIds lpad "unit cell optimization" ++
      getFwIds lpad "gas phase optimization")).Nodup :=
    (List.nodup_append.mpr ⟨hsub _, hsub _, fun a ha hb => hdisj a ha hb⟩)
  refine ⟨hids, hids ▸ hnodup.filter _, ?_⟩
  rw [dumpBulkGasToAuxDBRun, List.map_eq_nil_iff, List.filter_eq_nil_iff]
  intro fwid hmem
  have hmem2 : fwid ∈ auxFwids (aux ++ dumpBulkGasToAuxDBRun lpad aux) := by
    rw [auxFwids, List.filterMap_append]
    by_cases hin : fwid ∈ auxFwids aux
    · exact List.mem_append_left _ hin
    · refine List.mem_append_right _ ?_
      rw [show List.filterMap AuxDoc.fwid (dumpBulkGasToAuxDBRun lpad aux) =
        (dumpBulkGasToAuxDBRun lpad aux).filterMap AuxDoc.fwid from rfl, hids]
      refine List.mem_filter.mpr ⟨hmem, ?_⟩
      simp [List.contains, auxFwids] at hin ⊢
      exact hin
  simp [List.contains, hmem2]

/-- C6 witness: the theorem applied at a concrete launchpad (completed
fireworks 1 and 2, running firework 3) and auxiliary database holding 2. -/
theorem dump_bulk_gas_idempotent_witness :
    (lpadExample.map Firework.fwid).Nodup ∧
    ((dumpBulkGasToAuxDBRun lpadExample auxExample).filterMap AuxDoc.fwid =
      (getFwIds lpadExample "unit cell optimization" ++
        getFwIds lpadExample "gas phase optimization").filter
        (fun fwid => !(auxFwids auxExample).contains fwid) ∧
    ((dumpBulkGasToAuxDBRun lpadExample auxExample).filterMap AuxDoc.fwid).Nodup ∧
    dumpBulkGasToAuxDBRun lpadExample (auxExample ++ dumpBulkGasToAuxDBRun lpadExample auxExample) = []) :=
  ⟨by decide, dump_bulk_gas_idempotent lpadExample auxExample (by decide)⟩

/-- C7: GenerateSurfaces saves one document per generated slab whose shift
tag is 0 exactly when the slab is the only generated slab with its miller
index and the slab's own shift otherwise, and appends a second, flipped
document with top = False and the same shift, mpid and miller tags exactly
when the slab has no symmetry operation with matrix[2][2] = -1. -/
theorem generate_surfaces_saved_docs (mpid : String) (miller : Int × Int × Int)
    (slabs : List PSlab) (slab : PSlab) :
    generateSurfacesRun mpid miller slabs = slabs.flatMap (slabDocsFor mpid miller slabs) ∧
    ((slabs.filter fun a => a.millerIndex == slab.millerIndex).length = 1 →
      slabShiftTag slabs slab = 0) ∧
    ((slabs.filter fun a => a.millerIndex == slab.millerIndex).length ≠ 1 →
      slabShiftTag slabs slab = slab.shift) ∧
    (∀ d ∈ slabDocsFor mpid miller slabs slab,
      d.mpid = mpid ∧ d.miller = miller ∧ d.shift = slabShiftTag slabs slab) ∧
    ((slabDocsFor mpid miller slabs slab).map SlabDoc.top =
      if zInvertible slab then [true] else [true, false]) ∧
    ((slabDocsFor mpid miller slabs slab).map SlabDoc.flipped =
      if zInvertible slab then [false] else [false, true]) := by
  refine ⟨rfl, fun h => by simp [slabShiftTag, h], fun h => by simp [slabShiftTag, h], ?_, ?_, ?_⟩
  · intro d hd
    by_cases hz : zInvertible slab <;> simp [slabDocsFor, hz] at hd <;>
      first
      | (subst hd; exact ⟨rfl, rfl, rfl⟩)
      | (rcases hd with hd | hd <;> subst hd <;> exact ⟨rfl, rfl, rfl⟩)
  · by_cases hz : zInvertible slab <;> simp [slabDocsFor, hz]
  · by_cases hz : zInvertible slab <;> simp [slabDocsFor, hz]

/-- C8: the code contradicts its own docstring. On a list whose first
document has the wrong keys and whose second document is clean, the `break`
ends the loop and _clean_up_aggregated_docs returns nothing, while the
documented per-document deletion keeps the second document. -/
theorem clean_up_break_drops_later_docs :
    cleanUpAggregatedDocs badKeyAggDocs ["a"] = [] ∧
    cleanUpDocumented badKeyAggDocs ["a"] = [[("a", some 2)]] :=
  ⟨rfl, rfl⟩

theorem lookup_cons_ne {α β : Type} [BEq α] [LawfulBEq α] {k k' : α} (b : β)
    (es : List (α × β)) (h : k' ≠ k) : ((k, b) :: es).lookup k' = es.lookup k' := by
  have hb : (k' == k) = false := beq_eq_false_iff_ne.mpr h
  rw [List.lookup_cons, hb]

theorem mem_sortedKeys {doc : List (String × HVal)} {k : String} :
    k ∈ sortedKeys doc ↔ k ∈ doc.map Prod.fst :=
  (List.mergeSort_perm _ _).mem_iff

theorem sortedKeys_nodup {doc : List (String × HVal)}
    (h : (doc.map Prod.fst).Nodup) : (sortedKeys doc).Nodup :=
  ((List.mergeSort_perm _ _).nodup_iff).mpr h

theorem sortedKeys_sorted (doc : List (String × HVal)) :
    (sortedKeys doc).Sorted (· ≤ ·) :=
  List.sorted_mergeSort' _

theorem lookup_isSome_iff_mem_keys (l : List (String × HVal)) (k : String) :
    (l.lookup k).isSome ↔ k ∈ l.map Prod.fst := by
  induction l with
  | nil => simp
  | cons kv rest ih =>
      obtain ⟨k0, w⟩ := kv
      by_cases h : k = k0
      · subst h; simp [List.lookup_cons_self]
      · rw [lookup_cons_ne _ _ h]
        simp [ih, h]

theorem foldl_skip_filter (p : String → Bool) (e : String → String) :
    ∀ (l : List String) (init : String),
      l.foldl (fun system key => if p key then system else system ++ e key) init =
      (l.filter fun k => !p k).foldl (fun system key => system ++ e key) init := by
  intro l
  induction l with
  | nil => intro init; rfl
  | cons k rest ih =>
      intro init
      cases h : p k <;> simp [List.filter_cons, h, ih]

theorem foldl_append_congr (e1 e2 : String → String) :
    ∀ (l : List String) (init : String), (∀ k ∈ l, e1 k = e2 k) →
      l.foldl (fun system key => system ++ e1 key) init =
      l.foldl (fun system key => system ++ e2 key) init := by
  intro l
  induction l with
  | nil => intro init _; rfl
  | cons k rest ih =>
      intro init h
      simp only [List.foldl_cons]
      rw [h k (List.mem_cons_self k rest)]
      exact ih _ fun k' hk' => h k' (List.mem_cons_of_mem _ hk')

/-- C9: the pre-hash string of _hash_doc (as _hash_docs invokes it, with
'mongo_id' among the ignored keys) depends only on the documents' bindings
outside the ignored keys, up to float rounding at two decimal places; it is
insensitive to the values at ignored keys and to key insertion order. -/
theorem hash_doc_key_order_insensitive (d1 d2 : List (String × HVal)) (ig : List String)
    (h1 : (d1.map Prod.fst).Nodup) (h2 : (d2.map Prod.fst).Nodup)
    (hagree : ∀ k, k ∉ ig → k ≠ "mongo_id" →
      (d1.lookup k).map canonValue = (d2.lookup k).map canonValue) :
    hashDocString d1 (ig ++ ["mongo_id"]) = hashDocString d2 (ig ++ ["mongo_id"]) := by
  have hig : ∀ k : String,
      ((ig ++ ["mongo_id"]).contains k = false) ↔ (k ∉ ig ∧ k ≠ "mongo_id") := by
    intro k
    simp [List.contains, not_or]
  have hmemiff : ∀ k, k ∉ ig → k ≠ "mongo_id" →
      (k ∈ d1.map Prod.fst ↔ k ∈ d2.map Prod.fst) := by
    intro k hk1 hk2
    have h3 := hagree k hk1 hk2
    rw [← lookup_isSome_iff_mem_keys, ← lookup_isSome_iff_mem_keys]
    cases hd1 : d1.lookup k <;> cases hd2 : d2.lookup k <;>
      rw [hd1, hd2] at h3 <;> simp_all
  have hfilter : (sortedKeys d1).filter (fun k => !(ig ++ ["mongo_id"]).contains k) =
      (sortedKeys d2).filter (fun k => !(ig ++ ["mongo_id"]).contains k) := by
    apply List.eq_of_perm_of_sorted (r := (· ≤ ·))
    · refine (List.perm_ext_iff_of_nodup
        ((sortedKeys_nodup h1).filter _) ((sortedKeys_nodup h2).filter _)).mpr ?_
      intro a
      simp only [List.mem_filter, mem_sortedKeys, Bool.not_eq_eq_eq_not, Bool.not_true]
      constructor
      · rintro ⟨ham, hcon⟩
        obtain ⟨ha1, ha2⟩ := (hig a).mp hcon
        exact ⟨(hmemiff a ha1 ha2).mp ham, hcon⟩
      · rintro ⟨ham, hcon⟩
        obtain ⟨ha1, ha2⟩ := (hig a).mp hcon
        exact ⟨(hmemiff a ha1 ha2).mpr ham, hcon⟩
    · exact (sortedKeys_sorted d1).filter _
    · exact (sortedKeys_sorted d2).filter _
  have hentries : ∀ k ∈ (sortedKeys d1).filter (fun k => !(ig ++ ["mongo_id"]).contains k),
      docEntry d1 k = docEntry d2 k := by
    intro k hk
    have hcon : ((ig ++ ["mongo_id"]).contains k) = false := by
      have := (List.mem_filter.mp hk).2
      simpa using this
    obtain ⟨hk1, hk2⟩ := (hig k).mp hcon
    have hmap := hagree k hk1 hk2
    unfold docEntry
    cases hc1 : d1.lookup k with
    | none =>
        rw [hc1] at hmap
        cases hc2 : d2.lookup k with
        | none => rfl
        | some w => rw [hc2] at hmap; simp at hmap
    | some v =>
        rw [hc1] at hmap
        cases hc2 : d2.lookup k with
        | none => rw [hc2] at hmap; simp at hmap
        | some w =>
            rw [hc2] at hmap
            have hcv : canonValue v = canonValue w := by simpa using hmap
            show k ++ "=" ++ pyStr (canonValue v) ++ "; " =
              k ++ "=" ++ pyStr (canonValue w) ++ "; "
            rw [hcv]
  have step1 : hashDocString d1 (ig ++ ["mongo_id"]) =
      ((sortedKeys d1).filter fun k => !(ig ++ ["mongo_id"]).contains k).foldl
        (fun system key => system ++ docEntry d1 key) "" :=
    foldl_skip_filter ((ig ++ ["mongo_id"]).contains) (docEntry d1) (sortedKeys d1) ""
  have step3 : hashDocString d2 (ig ++ ["mongo_id"]) =
      ((sortedKeys d2).filter fun k => !(ig ++ ["mongo_id"]).contains k).foldl
        (fun system key => system ++ docEntry d2 key) "" :=
    foldl_skip_filter ((ig ++ ["mongo_id"]).contains) (docEntry d2) (sortedKeys d2) ""
  have step2 : ((sortedKeys d1).filter fun k => !(ig ++ ["mongo_id"]).contains k).foldl
        (fun system key => system ++ docEntry d1 key) "" =
      ((sortedKeys d2).filter fun k => !(ig ++ ["mongo_id"]).contains k).foldl
        (fun system key => system ++ docEntry d2 key) "" := by
    rw [foldl_append_congr (docEntry d1) (docEntry d2) _ "" hentries, hfilter]
  rw [step1, step3, step2]

/-- C9 witness: the theorem applied to two concrete documents holding the
same energy binding in opposite insertion order and different mongo ids. -/
theorem hash_doc_key_order_insensitive_witness :
    (hashDocLeft.map Prod.fst).Nodup ∧ (hashDocRight.map Prod.fst).Nodup ∧
    hashDocString hashDocLeft ([] ++ ["mongo_id"]) =
      hashDocString hashDocRight ([] ++ ["mongo_id"]) :=
  ⟨by decide, by decide,
   hash_doc_key_order_insensitive hashDocLeft hashDocRight [] (by decide) (by decide)
     (by
       intro k _ hk2
       by_cases he : k = "energy"
       · subst he; rfl
       · have e1 : hashDocLeft.lookup k = none := by
           rw [hashDocLeft, lookup_cons_ne _ _ he, lookup_cons_ne _ _ hk2, List.lookup_nil]
         have e2 : hashDocRight.lookup k = none := by
           rw [hashDocRight, lookup_cons_ne _ _ hk2, lookup_cons_ne _ _ he, List.lookup_nil]
         rw [e1, e2])⟩

theorem mergeInto_cons (base : SettingsDict) (kv : String × SVal) (rest : SettingsDict) :
    mergeInto base (kv :: rest) = mergeInto (setEntry base kv.1 kv.2) rest := rfl

theorem lookup_overwriteMap (d : SettingsDict) (k : String) (v : SVal) :
    (d.map fun kv => if kv.1 == k then (k, v) else kv).lookup k =
    if d.any (fun kv => kv.1 == k) then some v else none := by
  induction d with
  | nil => rfl
  | cons kv rest ih =>
      obtain ⟨k0, w⟩ := kv
      by_cases h : k0 = k
      · subst h; simp [List.lookup_cons_self]
      · have hb : (k0 == k) = false := beq_eq_false_iff_ne.mpr h
        have hif : (if (k0 == k) = true then (k, v) else (k0, w)) = (k0, w) := by
          rw [hb]; simp
        rw [List.map_cons, hif, lookup_cons_ne _ _ (Ne.symm h), ih, List.any_cons, hb,
          Bool.false_or]

theorem lookup_overwriteMap_ne (d : SettingsDict) (k : String) (v : SVal) (k' : String)
    (h : k' ≠ k) :
    (d.map fun kv => if kv.1 == k then (k, v) else kv).lookup k' = d.lookup k' := by
  induction d with
  | nil => rfl
  | cons kv rest ih =>
      obtain ⟨k0, w⟩ := kv
      by_cases h0 : k0 = k
      · subst h0
        have hif : (if (k0 == k0) = true then (k0, v) else (k0, w)) = (k0, v) := by simp
        rw [List.map_cons, hif]
        by_cases h1 : k' = k0
        · exact absurd h1 h
        · rw [lookup_cons_ne _ _ h1, lookup_cons_ne _ _ h1, ih]
      · have hb : (k0 == k) = false := beq_eq_false_iff_ne.mpr h0
        have hif : (if (k0 == k) = true then (k, v) else (k0, w)) = (k0, w) := by
          rw [hb]; simp
        rw [List.map_cons, hif]
        by_cases h1 : k' = k0
        · subst h1; rw [List.lookup_cons_self, List.lookup_cons_self]
        · rw [lookup_cons_ne _ _ h1, lookup_cons_ne _ _ h1, ih]

theorem lookup_append_last_self (d : SettingsDict) (k : String) (v : SVal)
    (h : d.lookup k = none) : (d ++ [(k, v)]).lookup k = some v := by
  induction d with
  | nil => rw [List.nil_append, List.lookup_cons_self]
  | cons kv rest ih =>
      obtain ⟨k0, w⟩ := kv
      by_cases h1 : k = k0
      · subst h1; rw [List.lookup_cons_self] at h; simp at h
      · rw [lookup_cons_ne _ _ h1] at h
        rw [List.cons_append, lookup_cons_ne _ _ h1]
        exact ih h

theorem lookup_append_last_ne (d : SettingsDict) (k k' : String) (v : SVal) (h : k' ≠ k) :
    (d ++ [(k, v)]).lookup k' = d.lookup k' := by
  induction d with
  | nil => rw [List.nil_append, lookup_cons_ne _ _ h, List.lookup_nil]
  | cons kv rest ih =>
      obtain ⟨k0, w⟩ := kv
      by_cases h1 : k' = k0
      · subst h1; rw [List.cons_append, List.lookup_cons_self, List.lookup_cons_self]
      · rw [List.cons_append, lookup_cons_ne _ _ h1, lookup_cons_ne _ _ h1, ih]

theorem lookup_setEntry_self (d : SettingsDict) (k : String) (v : SVal) :
    (setEntry d k v).lookup k = some v := by
  unfold setEntry
  by_cases h : (d.any fun kv => kv.1 == k) = true
  · rw [if_pos h, lookup_overwriteMap, if_pos h]
  · rw [if_neg h]
    apply lookup_append_last_self
    rw [List.lookup_eq_none_iff]
    intro p hp
    have hne : ¬ (p.1 == k) = true := fun hc => h (List.any_eq_true.mpr ⟨p, hp, hc⟩)
    have hne' : p.1 ≠ k := by simpa using hne
    simpa [bne_iff_ne] using Ne.symm hne'

theorem lookup_setEntry_ne (d : SettingsDict) (k : String) (v : SVal) (k' : String)
    (h : k' ≠ k) : (setEntry d k v).lookup k' = d.lookup k' := by
  unfold setEntry
  split
  · exact lookup_overwriteMap_ne d k v k' h
  · exact lookup_append_last_ne d k k' v h

theorem keys_setEntry (d : SettingsDict) (k : String) (v : SVal) :
    (setEntry d k v).map Prod.fst =
    if d.any (fun kv => kv.1 == k) then d.map Prod.fst else d.map Prod.fst ++ [k] := by
  unfold setEntry
  split
  · rw [List.map_map]
    apply List.map_congr_left
    intro kv _
    by_cases hb : kv.1 = k
    · simp [Function.comp, hb]
    · simp [Function.comp, hb]
  · simp

theorem keys_setEntry_nodup (d : SettingsDict) (k : String) (v : SVal)
    (h : (d.map Prod.fst).Nodup) : ((setEntry d k v).map Prod.fst).Nodup := by
  rw [keys_setEntry]
  split
  · exact h
  · rename_i hany
    refine List.Nodup.append h (List.nodup_singleton _) ?_
    intro a ha hb
    simp only [List.mem_singleton] at hb
    subst hb
    obtain ⟨kv, hkv, hfst⟩ := List.mem_map.mp ha
    exact hany (List.any_eq_true.mpr ⟨kv, hkv, by simp [hfst]⟩)

theorem lookup_mergeInto_not_mem :
    ∀ (d base : SettingsDict) (k : String), k ∉ d.map Prod.fst →
      (mergeInto base d).lookup k = base.lookup k := by
  intro d
  induction d with
  | nil => intro base k _; rfl
  | cons kv rest ih =>
      intro base k h
      have h1 : k ∉ rest.map Prod.fst := fun hm => h (by simp [hm])
      have h2 : k ≠ kv.1 := fun he => h (by simp [he])
      rw [mergeInto_cons, ih _ k h1, lookup_setEntry_ne _ _ _ _ h2]

theorem keys_mergeInto_nodup :
    ∀ (d base : SettingsDict), (base.map Prod.fst).Nodup →
      ((mergeInto base d).map Prod.fst).Nodup := by
  intro d
  induction d with
  | nil => intro base h; exact h
  | cons kv rest ih =>
      intro base h
      rw [mergeInto_cons]
      exact ih _ (keys_setEntry_nodup _ _ _ h)

theorem lookup_mergeInto_self :
    ∀ (s base : SettingsDict) (k : String) (v : SVal), (s.map Prod.fst).Nodup →
      s.lookup k = some v → (mergeInto base s).lookup k = some v := by
  intro s
  induction s with
  | nil => intro base k v _ h; simp at h
  | cons kv rest ih =>
      intro base k v hnd h
      obtain ⟨k0, v0⟩ := kv
      have hnd2 : (k0 :: rest.map Prod.fst).Nodup := by simpa using hnd
      have hnotin : k0 ∉ rest.map Prod.fst := (List.nodup_cons.mp hnd2).1
      have hnd' : (rest.map Prod.fst).Nodup := (List.nodup_cons.mp hnd2).2
      rw [mergeInto_cons]
      by_cases hk : k = k0
      · subst hk
        have hv : v0 = v := by simpa [List.lookup_cons_self] using h
        subst hv
        rw [lookup_mergeInto_not_mem _ _ _ hnotin]
        exact lookup_setEntry_self _ _ _
      · have h' : rest.lookup k = some v := by
          rw [lookup_cons_ne _ _ hk] at h; exact h
        exact ih _ k v hnd' h'

theorem readCell_alloc (st : Store) (d : SettingsDict) : readCell (st ++ [d]) st.length = d := by
  unfold readCell
  rw [List.getElem?_append_right (le_refl _)]
  simp

theorem readCell_append_frame (st : Store) (d : SettingsDict) (r : Nat) (h : r < st.length) :
    readCell (st ++ [d]) r = readCell st r := by
  unfold readCell
  rw [List.getElem?_append_left h]

theorem final_frame (st1 : Store) (r0 r : Nat) (ev : SVal) (h : r < st1.length) :
    readCell (writeKey (st1 ++ [readCell st1 r0]) st1.length "encut" ev) r =
    readCell st1 r := by
  unfold writeKey
  unfold readCell
  rw [List.getElem?_set_ne (Nat.ne_of_lt h).symm, List.getElem?_append_left h]

theorem final_at_copy (st1 : Store) (r0 : Nat) (ev : SVal) :
    readCell (writeKey (st1 ++ [readCell st1 r0]) st1.length "encut" ev) st1.length =
    setEntry (readCell st1 r0) "encut" ev := by
  unfold writeKey
  rw [readCell_alloc]
  unfold readCell
  rw [List.getElem?_set_self (by simp)]
  rfl

theorem basePairKeys_nodup :
    (([("encut", SVal.num 350), ("pp_version", SVal.str "5.4")] : SettingsDict).map
      Prod.fst).Nodup := by
  simp

/-- C10: bulk_parameters mutates nothing it was handed: every dictionary
allocated before the call (in particular any settings dictionary passed by
reference) is unchanged, the dictionary calc_settings produced inside the
call still carries encut 350 afterwards, calc_settings and gas_parameters
still see encut 350, and the encut override appears (only) in the returned
parameter dictionary. -/
theorem bulk_parameters_no_mutation (vaspXc : String → SettingsDict) (mpid : String)
    (encutVal : SVal) (maxAtoms : ℚ) (arg : SettingsArg) (st : Store) :
    (∀ r, r < st.length →
      readCell (bulkParameters vaspXc mpid encutVal maxAtoms arg st).1 r = readCell st r) ∧
    (∀ xc, arg = .fromString xc →
      readCell (bulkParameters vaspXc mpid encutVal maxAtoms arg st).1 st.length =
        calcSettingsDict vaspXc xc) ∧
    (∀ xc, "encut" ∉ (xcSettings vaspXc xc).map Prod.fst →
      ((calcSettingsDict vaspXc xc).lookup "encut" = some (.num 350) ∧
       (gasParameters vaspXc "CO" xc).vaspSettings.lookup "encut" = some (.num 350))) ∧
    (∀ xc, arg = .fromString xc →
      (bulkParameters vaspXc mpid encutVal maxAtoms arg st).2.vaspSettings.lookup "encut" =
        some encutVal) ∧
    (∀ r, arg = .fromRef r → ((readCell st r).map Prod.fst).Nodup →
      (bulkParameters vaspXc mpid encutVal maxAtoms arg st).2.vaspSettings.lookup "encut" =
        some encutVal) := by
  have hcalc350 : ∀ xc, "encut" ∉ (xcSettings vaspXc xc).map Prod.fst →
      (calcSettingsDict vaspXc xc).lookup "encut" = some (.num 350) := by
    intro xc hx
    rw [calcSettingsDict, lookup_mergeInto_not_mem _ _ _ hx]
    rfl
  have hcalcnodup : ∀ xc, ((calcSettingsDict vaspXc xc).map Prod.fst).Nodup := fun xc =>
    keys_mergeInto_nodup _ _ basePairKeys_nodup
  refine ⟨?_, ?_, ?_, ?_, ?_⟩
  · intro r hr
    cases arg with
    | fromRef rr => exact final_frame st rr r encutVal hr
    | fromString xc =>
        have hr1 : r < (st ++ [calcSettingsDict vaspXc xc]).length := by
          simp; omega
        calc readCell (bulkParameters vaspXc mpid encutVal maxAtoms (.fromString xc) st).1 r
            = readCell (st ++ [calcSettingsDict vaspXc xc]) r :=
              final_frame (st ++ [calcSettingsDict vaspXc xc]) st.length r encutVal hr1
          _ = readCell st r := readCell_append_frame st _ r hr
  · intro xc harg
    subst harg
    have hlen : st.length < (st ++ [calcSettingsDict vaspXc xc]).length := by simp
    calc readCell (bulkParameters vaspXc mpid encutVal maxAtoms (.fromString xc) st).1 st.length
        = readCell (st ++ [calcSettingsDict vaspXc xc]) st.length :=
          final_frame (st ++ [calcSettingsDict vaspXc xc]) st.length st.length encutVal hlen
      _ = calcSettingsDict vaspXc xc := readCell_alloc st _
  · intro xc hx
    refine ⟨hcalc350 xc hx, ?_⟩
    exact lookup_mergeInto_self _ _ _ _ (hcalcnodup xc) (hcalc350 xc hx)
  · intro xc harg
    subst harg
    show (mergeInto baseBulkVasp
      (readCell (writeKey ((st ++ [calcSettingsDict vaspXc xc]) ++
        [readCell (st ++ [calcSettingsDict vaspXc xc]) st.length])
        (st ++ [calcSettingsDict vaspXc xc]).length "encut" encutVal)
        (st ++ [calcSettingsDict vaspXc xc]).length)).lookup "encut" = some encutVal
    rw [final_at_copy, readCell_alloc]
    exact lookup_mergeInto_self _ _ _ _ (keys_setEntry_nodup _ _ _ (hcalcnodup xc))
      (lookup_setEntry_self _ _ _)
  · intro r harg hnd
    subst harg
    show (mergeInto baseBulkVasp
      (readCell (writeKey (st ++ [readCell st r]) st.length "encut" encutVal)
        st.length)).lookup "encut" = some encutVal
    rw [final_at_copy]
    exact lookup_mergeInto_self _ _ _ _ (keys_setEntry_nodup _ _ _ hnd)
      (lookup_setEntry_self _ _ _)

end GASpy
